import Mathlib

/-!
# Shallow embedding of `vnl_parser.py`

This file embeds the VNL screenshot parser (`src/vnl_parser.py`) in Lean 4
and proves properties of it.

Modelling conventions:
* The OCR capability (`cv2.imread` followed by `pytesseract.image_to_string`)
  is opaque in the source.  We model the pair as an `ImageWorld`: a map from
  image paths to `Option String`, where `none` means the image is missing or
  undecodable (`cv2.imread` returned `None`) and `some text` is the raw OCR
  text for a readable image.
* Python exceptions become `Except VNLError`.  The source raises `ValueError`
  in four distinct situations; we give each its own constructor, following the
  distinct error conditions of the source.
* Python `int` is embedded as `Int`.  Digit strings are converted with the
  usual base-10 fold, so values produced from the digit-run regex are
  non-negative integers, as in Python.
* Text is processed as `List Char` (via `String.data`).  `str.splitlines()`
  is modelled as splitting on the newline character (the source's OCR text is
  opaque, so exotic Unicode line boundaries are out of scope; a trailing
  empty line produced by the model is dropped by the same nonempty-line
  filter the source applies).  `str.split()` splits on runs of whitespace and
  drops empty tokens, which also subsumes the `raw.strip()` in the source.
* `re.compile(r"\d+").search(tok)` finds the first maximal run of decimal
  digits in `tok`; `firstNumber` below implements exactly that search.
* Writing the CSV (`df.to_csv`) is modelled by returning a `Csv` value: an
  `Except.ok csv` result means the file is written with that content, an
  `Except.error` result means the run aborted and no file was written
  (`to_csv` is the last statement of `build_dataset`).
  `pd.DataFrame(rows)` over a list of uniform dicts has the dicts' 11 keys
  as columns; over the empty list it has no columns at all, which is why the
  `Csv` header is empty when no rows were collected.
-/

/-- The possible `ValueError`s of `vnl_parser.py`, one constructor per raise
site: unreadable/missing image (`_ocr_lines`), malformed match specification
(`build_dataset`'s split or the `int(label_str)` conversion), missing value
in a row (`_parse_match`), and missing values in the final frame
(`build_dataset`). -/
inductive VNLError where
  | imageUnreadable (path : String)
  | invalidMatchSpecification (spec : String)
  | incompleteMatchData (dir : String)
  | incompleteDataset
deriving DecidableEq, Repr

/-- The OCR world: what `cv2.imread` + `pytesseract.image_to_string` yield at
each path.  `none` models a missing or undecodable image. -/
def ImageWorld : Type := String → Option String

/-- Order of the expected screenshots per team (`TEAM_SCREENS`). -/
def TEAM_SCREENS : List String :=
  ["scoring", "attack", "block", "serve", "reception", "dig", "set"]

/-- Aggregated statistics for one team (dataclass `TeamStats`). -/
structure TeamStats where
  attack : Int
  block : Int
  serve : Int
  opp_error : Int
  total_points : Int
  dig : Int
  reception : Int
  set : Int
  top_scorer_1 : Int
  top_scorer_2 : Int
deriving DecidableEq, Repr

/-! ## Tokenization (`_ocr_lines`) -/

/-- Split a character list into lines at newline characters
(models `text.splitlines()`; see the header comment). -/
def splitLinesGo : List Char → List Char → List (List Char)
  | [], cur => [cur.reverse]
  | c :: cs, cur =>
    if c = '\n' then cur.reverse :: splitLinesGo cs []
    else splitLinesGo cs (c :: cur)

def splitLines (s : List Char) : List (List Char) := splitLinesGo s []

/-- Split a line into tokens at runs of whitespace, dropping empty tokens
(models `raw.strip().split()`). -/
def splitWSGo : List Char → List Char → List (List Char)
  | [], cur => if cur.isEmpty then [] else [cur.reverse]
  | c :: cs, cur =>
    if c.isWhitespace then
      if cur.isEmpty then splitWSGo cs [] else cur.reverse :: splitWSGo cs []
    else splitWSGo cs (c :: cur)

def splitWS (s : List Char) : List (List Char) := splitWSGo s []

/-- Tokenize OCR text: split into lines, tokenize each line, keep only lines
with at least one token (the `if tokens:` filter in `_ocr_lines`). -/
def ocrTokenize (text : String) : List (List (List Char)) :=
  ((splitLines text.data).map splitWS).filter (fun tokens => !tokens.isEmpty)

/-- Embeds `_ocr_lines`: read the image at `path` in world `w`; fail with
`imageUnreadable` when the image is missing/undecodable, otherwise return the
tokenized lines of its OCR text. -/
def _ocr_lines (w : ImageWorld) (path : String) :
    Except VNLError (List (List (List Char))) :=
  match w path with
  | none => .error (.imageUnreadable path)
  | some text => .ok (ocrTokenize text)

/-! ## Numeric extraction (`_number_re`, `_extract_numbers`) -/

/-- Base-10 value of a digit character. -/
def digitVal (c : Char) : Nat := c.toNat - 48

/-- Base-10 value of a digit string (models `int(m.group())` on the matched
digit run). -/
def natOfDigits (ds : List Char) : Nat :=
  ds.foldl (fun a c => a * 10 + digitVal c) 0

/-- Models `_number_re.search`: find the first maximal run of decimal digits in a
token and convert it to an integer; `none` when the token has no digit. -/
def firstNumber : List Char → Option Int
  | [] => none
  | c :: cs =>
    if c.isDigit then some ((natOfDigits (c :: cs.takeWhile Char.isDigit) : Nat) : Int)
    else firstNumber cs

/-- Embeds `_extract_numbers`: one integer per token that contains a digit, in token
order. -/
def _extract_numbers (tokens : List (List Char)) : List Int :=
  tokens.filterMap firstNumber

/-! ## Descending sort (models `sorted(..., reverse=True)`)

Python's `sorted(xs, reverse=True)` returns the sequence of `xs` reordered
descending.  Over `Int`, the descending-sorted permutation of a list is
unique, so the insertion sort below computes the same list. -/

def insertDesc (x : Int) : List Int → List Int
  | [] => [x]
  | y :: ys => if y ≤ x then x :: y :: ys else y :: insertDesc x ys

def sortDesc (l : List Int) : List Int := l.foldr insertDesc []

/-! ## Scoring-sheet parser (`_parse_scoring`) -/

/-- The result dictionary of `_parse_scoring` (its seven keys). -/
structure ScoringResult where
  attack : Int
  block : Int
  serve : Int
  opp_error : Int
  total_points : Int
  top_scorer_1 : Int
  top_scorer_2 : Int
deriving DecidableEq, Repr

/-- The `totals` accumulator of `_parse_scoring`. -/
structure ScoringAcc where
  attack : Int
  block : Int
  serve : Int
  opp_error : Int
  top_scorers : List Int
deriving Repr

def initScoringAcc : ScoringAcc :=
  { attack := 0, block := 0, serve := 0, opp_error := 0, top_scorers := [] }

/-- One iteration of the loop body of `_parse_scoring`: extract the numbers of
the line; if there are at least 5, add positions 1–4 to the running sums and
record the player's total; otherwise leave the accumulator unchanged. -/
def scoringStep (acc : ScoringAcc) (tokens : List (List Char)) : ScoringAcc :=
  let numbers := _extract_numbers tokens
  if 5 ≤ numbers.length then
    { attack := acc.attack + numbers.getD 1 0
      block := acc.block + numbers.getD 2 0
      serve := acc.serve + numbers.getD 3 0
      opp_error := acc.opp_error + numbers.getD 4 0
      top_scorers := acc.top_scorers ++
        [numbers.getD 1 0 + numbers.getD 2 0 + numbers.getD 3 0 + numbers.getD 4 0] }
  else acc

/-- The pure part of `_parse_scoring`, applied to the tokenized lines. -/
def parseScoringLines (lines : List (List (List Char))) : ScoringResult :=
  let t := lines.foldl scoringStep initScoringAcc
  let top := sortDesc t.top_scorers
  { attack := t.attack
    block := t.block
    serve := t.serve
    opp_error := t.opp_error
    total_points := t.attack + t.block + t.serve + t.opp_error
    top_scorer_1 := top.headD 0
    top_scorer_2 := (top.drop 1).headD 0 }

/-- Embeds `_parse_scoring`: OCR the image, then aggregate the scoring columns. -/
def _parse_scoring (w : ImageWorld) (image : String) :
    Except VNLError ScoringResult :=
  match _ocr_lines w image with
  | .error e => .error e
  | .ok lines => .ok (parseScoringLines lines)

/-! ## Simple-total parser (`_parse_simple_total`) -/

/-- The pure part of `_parse_simple_total`: sum the first number of every line
that has one. -/
def parseSimpleTotalLines (lines : List (List (List Char))) : Int :=
  lines.foldl
    (fun total tokens =>
      match _extract_numbers tokens with
      | [] => total
      | n :: _ => total + n)
    0

/-- Embeds `_parse_simple_total`: OCR the image, then sum the first number per line. -/
def _parse_simple_total (w : ImageWorld) (image : String) :
    Except VNLError Int :=
  match _ocr_lines w image with
  | .error e => .error e
  | .ok lines => .ok (parseSimpleTotalLines lines)

/-! ## Team aggregation (`_parse_team`) -/

/-- The per-team image dictionary built in `_parse_match` (one path per
canonical sheet name). -/
structure TeamImages where
  scoring : String
  attack : String
  block : String
  serve : String
  reception : String
  dig : String
  set : String
deriving DecidableEq, Repr

/-- Embeds `_parse_team`: parse the scoring sheet and the three simple-total sheets
(dig, reception, set); the attack/block/serve images are present in the
dictionary but never read.  Errors propagate in the source's evaluation
order. -/
def _parse_team (w : ImageWorld) (images : TeamImages) :
    Except VNLError TeamStats :=
  match _parse_scoring w images.scoring with
  | .error e => .error e
  | .ok scoring =>
  match _parse_simple_total w images.dig with
  | .error e => .error e
  | .ok dig =>
  match _parse_simple_total w images.reception with
  | .error e => .error e
  | .ok reception =>
  match _parse_simple_total w images.set with
  | .error e => .error e
  | .ok setTotal =>
    .ok { attack := scoring.attack
          block := scoring.block
          serve := scoring.serve
          opp_error := scoring.opp_error
          total_points := scoring.total_points
          dig := dig
          reception := reception
          set := setTotal
          top_scorer_1 := scoring.top_scorer_1
          top_scorer_2 := scoring.top_scorer_2 }

/-! ## Match processing (`_parse_match`) -/

/-- Path of one team sheet: `match_dir / f"{pfx}_{name}.png"`. -/
def teamPath (dir pfx name : String) : String :=
  dir ++ "/" ++ pfx ++ "_" ++ name ++ ".png"

/-- The image dictionary `{name: match_dir / f"{pfx}_{name}.png"}` for the
seven canonical sheet names. -/
def teamImages (dir pfx : String) : TeamImages :=
  { scoring := teamPath dir pfx "scoring"
    attack := teamPath dir pfx "attack"
    block := teamPath dir pfx "block"
    serve := teamPath dir pfx "serve"
    reception := teamPath dir pfx "reception"
    dig := teamPath dir pfx "dig"
    set := teamPath dir pfx "set" }

/-- The feature row built by `_parse_match`.  Fields are `Option Int` to model
the row dictionary whose values the source checks against `None`; every value
the source actually stores is an `int`, i.e. a `some`. -/
structure MatchRow where
  attack_diff : Option Int
  block_diff : Option Int
  serve_diff : Option Int
  opp_error_diff : Option Int
  total_points_diff : Option Int
  dig_diff : Option Int
  reception_diff : Option Int
  set_diff : Option Int
  top_scorer_1_diff : Option Int
  top_scorer_2_diff : Option Int
  label : Option Int
deriving DecidableEq, Repr

/-- The row dictionary literal of `_parse_match`: signed differences
`teamA - teamB` plus the verbatim label. -/
def mkRow (a b : TeamStats) (label : Int) : MatchRow :=
  { attack_diff := some (a.attack - b.attack)
    block_diff := some (a.block - b.block)
    serve_diff := some (a.serve - b.serve)
    opp_error_diff := some (a.opp_error - b.opp_error)
    total_points_diff := some (a.total_points - b.total_points)
    dig_diff := some (a.dig - b.dig)
    reception_diff := some (a.reception - b.reception)
    set_diff := some (a.set - b.set)
    top_scorer_1_diff := some (a.top_scorer_1 - b.top_scorer_1)
    top_scorer_2_diff := some (a.top_scorer_2 - b.top_scorer_2)
    label := some label }

/-- Models `any(v is None for v in row.values())`. -/
def rowHasNone (r : MatchRow) : Bool :=
  r.attack_diff.isNone || r.block_diff.isNone || r.serve_diff.isNone ||
  r.opp_error_diff.isNone || r.total_points_diff.isNone || r.dig_diff.isNone ||
  r.reception_diff.isNone || r.set_diff.isNone || r.top_scorer_1_diff.isNone ||
  r.top_scorer_2_diff.isNone || r.label.isNone

/-- Embeds `_parse_match`: build the two image dictionaries, parse both teams,
compute the differences and attach the label, then run the missing-value
check. -/
def _parse_match (w : ImageWorld) (match_dir : String) (label : Int) :
    Except VNLError MatchRow :=
  let team_a_images := teamImages match_dir "teamA"
  let team_b_images := teamImages match_dir "teamB"
  match _parse_team w team_a_images with
  | .error e => .error e
  | .ok team_a =>
  match _parse_team w team_b_images with
  | .error e => .error e
  | .ok team_b =>
    let row := mkRow team_a team_b label
    if rowHasNone row then .error (.incompleteMatchData match_dir)
    else .ok row

/-! ## Dataset building (`build_dataset`) -/

/-- Models `spec.split(":", 1)`: `none` when the string has no colon (Python then
raises from the destructuring), otherwise the parts before and after the
first colon. -/
def splitColon1 : List Char → Option (List Char × List Char)
  | [] => none
  | c :: cs =>
    if c = ':' then some ([], cs)
    else
      match splitColon1 cs with
      | none => none
      | some (a, b) => some (c :: a, b)

/-- Python `int(s)` on the label part: an optional sign followed by at least
one decimal digit.  (Python also tolerates surrounding whitespace and digit
group underscores; those forms do not occur in the specifications this
development evaluates, and a string rejected here that Python would accept
is still an integer, so error classification is unaffected.) -/
def parseIntPy (s : List Char) : Option Int :=
  match s with
  | [] => none
  | '-' :: rest =>
    if rest ≠ [] ∧ rest.all Char.isDigit then some (-(natOfDigits rest : Nat) : Int)
    else none
  | '+' :: rest =>
    if rest ≠ [] ∧ rest.all Char.isDigit then some ((natOfDigits rest : Nat) : Int)
    else none
  | _ =>
    if s.all Char.isDigit then some ((natOfDigits s : Nat) : Int)
    else none

/-- Decode one match specification `"<dir>:<label>"`.  Both failure modes of
the source (unpacking the split result, and `int(label_str)`) raise
`ValueError`; both are the malformed-specification condition. -/
def parseSpec (spec : String) : Except VNLError (String × Int) :=
  match splitColon1 spec.data with
  | none => .error (.invalidMatchSpecification spec)
  | some (dirName, labelStr) =>
    match parseIntPy labelStr with
    | none => .error (.invalidMatchSpecification spec)
    | some label => .ok (⟨dirName⟩, label)

/-- The `rows` loop of `build_dataset`: process the specifications in order,
stopping at the first failure. -/
def collectRows (w : ImageWorld) : List String → Except VNLError (List MatchRow)
  | [] => .ok []
  | spec :: rest =>
    match parseSpec spec with
    | .error e => .error e
    | .ok (dir, label) =>
    match _parse_match w dir label with
    | .error e => .error e
    | .ok row =>
    match collectRows w rest with
    | .error e => .error e
    | .ok rows => .ok (row :: rows)

/-- The 11 contract columns, in `_parse_match`'s row-key order (this is the
column order `pd.DataFrame` derives from the dicts). -/
def COLUMNS : List String :=
  ["attack_diff", "block_diff", "serve_diff", "opp_error_diff",
   "total_points_diff", "dig_diff", "reception_diff", "set_diff",
   "top_scorer_1_diff", "top_scorer_2_diff", "label"]

/-- The persisted table: header row plus data rows (`df.to_csv`).  An empty
frame (`pd.DataFrame([])`) has no columns, hence an empty header. -/
structure Csv where
  header : List String
  rows : List MatchRow
deriving DecidableEq, Repr

/-- Embeds `build_dataset`: collect one row per specification (fail-fast), run the
final frame-wide missing-value check, then write the CSV.  An `Except.ok`
result is the written file; any `Except.error` aborts before `to_csv`, so no
file is written. -/
def build_dataset (w : ImageWorld) (match_specs : List String) :
    Except VNLError Csv :=
  match collectRows w match_specs with
  | .error e => .error e
  | .ok rows =>
    if rows.any rowHasNone then .error .incompleteDataset
    else .ok { header := if rows.isEmpty then [] else COLUMNS, rows := rows }

/-! ## Spec-side characterizations

These definitions restate, directly from the spec's wording, what the scoring
parser and the numeric extractor are supposed to compute; the theorems below
relate them to the embedded source functions. -/

/-- Whether a token contains at least one decimal digit. -/
def hasDigit (tok : List Char) : Bool := tok.any Char.isDigit

/-- The integer value of the first digit run of a token: skip to the first
digit, then read the maximal digit run from there. -/
def firstRunValue (tok : List Char) : Int :=
  ((natOfDigits ((tok.dropWhile (fun c => !c.isDigit)).takeWhile Char.isDigit) : Nat) : Int)

/-- The number at position `i` (0-indexed) among the numbers extracted from a
line; 0 when the line has fewer numbers (only used under a length bound). -/
def lineNumAt (i : Nat) (tokens : List (List Char)) : Int :=
  (_extract_numbers tokens).getD i 0

/-- The qualifying lines: those yielding 5 or more extracted numbers. -/
def qualLines (lines : List (List (List Char))) : List (List (List Char)) :=
  lines.filter (fun tokens => decide (5 ≤ (_extract_numbers tokens).length))

/-- The per-player total of one qualifying line: the sum of its numbers at
positions 1–4 (attack + block + serve + opp_error). -/
def lineTotal (tokens : List (List Char)) : Int :=
  lineNumAt 1 tokens + lineNumAt 2 tokens + lineNumAt 3 tokens + lineNumAt 4 tokens

/-- The per-player totals of all qualifying lines, in line order. -/
def scoringTotals (lines : List (List (List Char))) : List Int :=
  (qualLines lines).map lineTotal

/-- Descending sortedness: each element is ≥ all later ones. -/
abbrev SortedDesc (l : List Int) : Prop := l.Pairwise (fun a b => b ≤ a)

/-! ## Sorting lemmas -/

theorem insertDesc_perm (x : Int) (l : List Int) :
    (insertDesc x l).Perm (x :: l) := by
  induction l with
  | nil => simp [insertDesc]
  | cons y ys ih =>
    by_cases h : y ≤ x
    · simp [insertDesc, h]
    · simp only [insertDesc, if_neg h]
      exact (ih.cons y).trans (List.Perm.swap x y ys)

theorem sortDesc_perm (l : List Int) : (sortDesc l).Perm l := by
  induction l with
  | nil => rfl
  | cons x xs ih => exact (insertDesc_perm x (sortDesc xs)).trans (ih.cons x)

theorem insertDesc_sorted (x : Int) (l : List Int) (h : SortedDesc l) :
    SortedDesc (insertDesc x l) := by
  induction l with
  | nil => simp [insertDesc, SortedDesc]
  | cons y ys ih =>
    rcases List.pairwise_cons.mp h with ⟨hy, hys⟩
    by_cases hxy : y ≤ x
    · simp only [insertDesc, if_pos hxy]
      refine List.pairwise_cons.mpr ⟨?_, h⟩
      intro b hb
      rcases List.mem_cons.mp hb with hb | hb
      · exact hb ▸ hxy
      · exact le_trans (hy b hb) hxy
    · simp only [insertDesc, if_neg hxy]
      refine List.pairwise_cons.mpr ⟨?_, ih hys⟩
      intro b hb
      rcases List.mem_cons.mp ((insertDesc_perm x ys).mem_iff.mp hb) with hb | hb
      · exact hb ▸ le_of_not_le hxy
      · exact hy b hb

theorem sortDesc_sorted (l : List Int) : SortedDesc (sortDesc l) := by
  induction l with
  | nil => simp [sortDesc, SortedDesc]
  | cons x xs ih => exact insertDesc_sorted x (sortDesc xs) ih

theorem foldr_max_nonneg (l : List Int) : 0 ≤ l.foldr max 0 := by
  induction l with
  | nil => simp
  | cons a t ih => exact le_trans ih (le_max_right a _)

theorem foldr_max_perm {l1 l2 : List Int} (h : l1.Perm l2) :
    l1.foldr max 0 = l2.foldr max 0 := by
  induction h with
  | nil => rfl
  | cons a _ ih => simp only [List.foldr_cons, ih]
  | swap a b t => simp only [List.foldr_cons]; rw [max_left_comm]
  | trans _ _ ih1 ih2 => exact ih1.trans ih2

theorem foldr_max_le (a : Int) (l : List Int) (ha : 0 ≤ a)
    (h : ∀ x ∈ l, x ≤ a) : l.foldr max 0 ≤ a := by
  induction l with
  | nil => exact ha
  | cons b t ih =>
    exact max_le (h b (List.mem_cons_self b t))
      (ih fun x hx => h x (List.mem_cons_of_mem b hx))

theorem sortedDesc_headD_eq_foldr_max (l : List Int) (hs : SortedDesc l)
    (hn : ∀ x ∈ l, 0 ≤ x) : l.headD 0 = l.foldr max 0 := by
  cases l with
  | nil => rfl
  | cons a t =>
    rcases List.pairwise_cons.mp hs with ⟨ha, _⟩
    have h0 : 0 ≤ a := hn a (List.mem_cons_self a t)
    have hle : t.foldr max 0 ≤ a := foldr_max_le a t h0 ha
    simp only [List.headD_cons, List.foldr_cons]
    exact (max_eq_left hle).symm

/-! ## Numeric extraction lemmas -/

theorem firstNumber_nonneg (tok : List Char) (n : Int)
    (h : firstNumber tok = some n) : 0 ≤ n := by
  induction tok with
  | nil => simp [firstNumber] at h
  | cons c cs ih =>
    by_cases hc : c.isDigit
    · simp only [firstNumber, if_pos hc, Option.some.injEq] at h
      exact h ▸ Int.natCast_nonneg _
    · simp only [firstNumber, if_neg hc] at h
      exact ih h

theorem extract_nonneg (tokens : List (List Char)) (n : Int)
    (h : n ∈ _extract_numbers tokens) : 0 ≤ n := by
  rcases List.mem_filterMap.mp h with ⟨tok, _, htok⟩
  exact firstNumber_nonneg tok n htok

theorem getD_nonneg (l : List Int) (i : Nat) (h : ∀ x ∈ l, 0 ≤ x) :
    0 ≤ l.getD i 0 := by
  rw [List.getD_eq_getElem?_getD]
  cases hg : l[i]? with
  | none => simp
  | some x => simpa using h x (List.getElem?_mem hg)

theorem lineNumAt_nonneg (i : Nat) (tokens : List (List Char)) :
    0 ≤ lineNumAt i tokens :=
  getD_nonneg _ i (fun x hx => extract_nonneg tokens x hx)

theorem scoringTotals_nonneg (lines : List (List (List Char))) :
    ∀ x ∈ scoringTotals lines, 0 ≤ x := by
  intro x hx
  rcases List.mem_map.mp hx with ⟨tokens, _, rfl⟩
  have h1 := lineNumAt_nonneg 1 tokens
  have h2 := lineNumAt_nonneg 2 tokens
  have h3 := lineNumAt_nonneg 3 tokens
  have h4 := lineNumAt_nonneg 4 tokens
  unfold lineTotal
  omega

/-- The function `firstNumber` is the first-digit-run search: it returns the value of the
first maximal digit run when the token has a digit, and nothing otherwise. -/
theorem firstNumber_eq (tok : List Char) :
    firstNumber tok = if hasDigit tok then some (firstRunValue tok) else none := by
  induction tok with
  | nil => rfl
  | cons c cs ih =>
    by_cases hc : c.isDigit
    · simp [firstNumber, hasDigit, firstRunValue, hc, List.dropWhile, List.takeWhile]
    · simp [firstNumber, hasDigit, firstRunValue, hc, List.dropWhile, ih]

/-! ## Scoring fold characterization -/

theorem foldl_scoringStep_spec (lines : List (List (List Char))) (acc : ScoringAcc) :
    (lines.foldl scoringStep acc).attack
      = acc.attack + ((qualLines lines).map (lineNumAt 1)).sum ∧
    (lines.foldl scoringStep acc).block
      = acc.block + ((qualLines lines).map (lineNumAt 2)).sum ∧
    (lines.foldl scoringStep acc).serve
      = acc.serve + ((qualLines lines).map (lineNumAt 3)).sum ∧
    (lines.foldl scoringStep acc).opp_error
      = acc.opp_error + ((qualLines lines).map (lineNumAt 4)).sum ∧
    (lines.foldl scoringStep acc).top_scorers
      = acc.top_scorers ++ scoringTotals lines := by
  induction lines generalizing acc with
  | nil => simp [qualLines, scoringTotals]
  | cons line rest ih =>
    by_cases h : 5 ≤ (_extract_numbers line).length
    · have hstep : scoringStep acc line =
          { attack := acc.attack + lineNumAt 1 line
            block := acc.block + lineNumAt 2 line
            serve := acc.serve + lineNumAt 3 line
            opp_error := acc.opp_error + lineNumAt 4 line
            top_scorers := acc.top_scorers ++ [lineTotal line] } := by
        simp [scoringStep, lineNumAt, lineTotal, h]
      have hq : qualLines (line :: rest) = line :: qualLines rest := by
        simp [qualLines, List.filter_cons, h]
      obtain ⟨ha, hb, hs, ho, ht⟩ := ih (scoringStep acc line)
      rw [hstep] at ha hb hs ho ht
      refine ⟨?_, ?_, ?_, ?_, ?_⟩ <;>
        simp only [List.foldl_cons, hstep, ha, hb, hs, ho, ht, hq, scoringTotals,
          List.map_cons, List.sum_cons, List.append_assoc, List.singleton_append] <;>
        try omega
    · have hstep : scoringStep acc line = acc := by simp [scoringStep, h]
      have hq : qualLines (line :: rest) = qualLines rest := by
        simp [qualLines, List.filter_cons, h]
      obtain ⟨ha, hb, hs, ho, ht⟩ := ih (scoringStep acc line)
      rw [hstep] at ha hb hs ho ht
      refine ⟨?_, ?_, ?_, ?_, ?_⟩ <;>
        simp only [List.foldl_cons, hstep, ha, hb, hs, ho, ht, hq, scoringTotals]

theorem parseScoringLines_sums (lines : List (List (List Char))) :
    (parseScoringLines lines).attack = ((qualLines lines).map (lineNumAt 1)).sum ∧
    (parseScoringLines lines).block = ((qualLines lines).map (lineNumAt 2)).sum ∧
    (parseScoringLines lines).serve = ((qualLines lines).map (lineNumAt 3)).sum ∧
    (parseScoringLines lines).opp_error = ((qualLines lines).map (lineNumAt 4)).sum ∧
    (parseScoringLines lines).total_points
      = (parseScoringLines lines).attack + (parseScoringLines lines).block
        + (parseScoringLines lines).serve + (parseScoringLines lines).opp_error := by
  obtain ⟨ha, hb, hs, ho, _⟩ := foldl_scoringStep_spec lines initScoringAcc
  have ha' : (lines.foldl scoringStep initScoringAcc).attack
      = ((qualLines lines).map (lineNumAt 1)).sum := by rw [ha]; simp [initScoringAcc]
  have hb' : (lines.foldl scoringStep initScoringAcc).block
      = ((qualLines lines).map (lineNumAt 2)).sum := by rw [hb]; simp [initScoringAcc]
  have hs' : (lines.foldl scoringStep initScoringAcc).serve
      = ((qualLines lines).map (lineNumAt 3)).sum := by rw [hs]; simp [initScoringAcc]
  have ho' : (lines.foldl scoringStep initScoringAcc).opp_error
      = ((qualLines lines).map (lineNumAt 4)).sum := by rw [ho]; simp [initScoringAcc]
  exact ⟨ha', hb', hs', ho', rfl⟩

theorem parseScoringLines_topScorers (lines : List (List (List Char))) :
    (lines.foldl scoringStep initScoringAcc).top_scorers = scoringTotals lines := by
  obtain ⟨_, _, _, _, ht⟩ := foldl_scoringStep_spec lines initScoringAcc
  simpa [initScoringAcc] using ht

theorem headD_nonneg (l : List Int) (h : ∀ x ∈ l, 0 ≤ x) : 0 ≤ l.headD 0 := by
  cases l with
  | nil => simp
  | cons a t => exact h a (List.mem_cons_self a t)

/-- The two leading entries of the descending sort are the maximum and the
maximum after removing one copy of the maximum (both 0 on lists that are too
short), provided all entries are non-negative. -/
theorem topTwo_spec (ts : List Int) (hn : ∀ x ∈ ts, 0 ≤ x) :
    (sortDesc ts).headD 0 = ts.foldr max 0 ∧
    ((sortDesc ts).drop 1).headD 0 = (ts.erase (ts.foldr max 0)).foldr max 0 ∧
    0 ≤ ((sortDesc ts).drop 1).headD 0 ∧
    ((sortDesc ts).drop 1).headD 0 ≤ (sortDesc ts).headD 0 := by
  have hperm : (sortDesc ts).Perm ts := sortDesc_perm ts
  have hsorted : SortedDesc (sortDesc ts) := sortDesc_sorted ts
  have hn' : ∀ x ∈ sortDesc ts, 0 ≤ x := fun x hx => hn x (hperm.mem_iff.mp hx)
  have h1 : (sortDesc ts).headD 0 = (sortDesc ts).foldr max 0 :=
    sortedDesc_headD_eq_foldr_max _ hsorted hn'
  have h1' : (sortDesc ts).foldr max 0 = ts.foldr max 0 := foldr_max_perm hperm
  cases hs : sortDesc ts with
  | nil =>
    have hts : ts = [] := ((hs ▸ hperm).symm).eq_nil
    subst hts
    simp [sortDesc]
  | cons a t =>
    rw [hs] at hperm hsorted hn' h1 h1'
    obtain ⟨hhead, htail⟩ := List.pairwise_cons.mp hsorted
    have ha0 : 0 ≤ a := hn' a (List.mem_cons_self a t)
    have hmax : ts.foldr max 0 = a := by
      rw [← h1', List.foldr_cons]
      exact max_eq_left (foldr_max_le a t ha0 hhead)
    have herase : (ts.erase a).Perm t := by
      have hpe : ((a :: t).erase a).Perm (ts.erase a) := List.Perm.erase a hperm
      rw [List.erase_cons_head] at hpe
      exact hpe.symm
    have htn : ∀ x ∈ t, 0 ≤ x := fun x hx => hn' x (List.mem_cons_of_mem a hx)
    have h2 : t.headD 0 = t.foldr max 0 := sortedDesc_headD_eq_foldr_max t htail htn
    have h2' : t.foldr max 0 = (ts.erase a).foldr max 0 := foldr_max_perm herase.symm
    refine ⟨h1.trans h1', ?_, ?_, ?_⟩
    · rw [hmax]
      simpa using h2.trans h2'
    · simpa using headD_nonneg t htn
    · simp only [List.drop_succ_cons, List.drop_zero, List.headD_cons]
      cases t with
      | nil => simpa using ha0
      | cons b t2 => simpa using hhead b (List.mem_cons_self b t2)

/-- The two top-scorer fields of `parseScoringLines` are the two leading
entries of the descending sort of the per-player totals. -/
theorem parseScoringLines_top (lines : List (List (List Char))) :
    (parseScoringLines lines).top_scorer_1 = (sortDesc (scoringTotals lines)).headD 0 ∧
    (parseScoringLines lines).top_scorer_2 =
      ((sortDesc (scoringTotals lines)).drop 1).headD 0 := by
  have ht := parseScoringLines_topScorers lines
  constructor
  · show (sortDesc (lines.foldl scoringStep initScoringAcc).top_scorers).headD 0 = _
    rw [ht]
  · show ((sortDesc (lines.foldl scoringStep initScoringAcc).top_scorers).drop 1).headD 0 = _
    rw [ht]

theorem parseSimpleTotalLines_nonneg (lines : List (List (List Char))) :
    0 ≤ parseSimpleTotalLines lines := by
  suffices h : ∀ acc : Int, 0 ≤ acc →
      0 ≤ lines.foldl
        (fun total tokens =>
          match _extract_numbers tokens with
          | [] => total
          | n :: _ => total + n) acc by
    exact h 0 le_rfl
  induction lines with
  | nil => intro acc hacc; simpa using hacc
  | cons line rest ih =>
    intro acc hacc
    rw [List.foldl_cons]
    cases hx : _extract_numbers line with
    | nil => simpa [hx] using ih acc hacc
    | cons n ns =>
      have hn : 0 ≤ n :=
        extract_nonneg line n (hx ▸ List.mem_cons_self n ns)
      simpa [hx] using ih (acc + n) (by omega)

theorem parseScoringLines_nonneg (lines : List (List (List Char))) :
    0 ≤ (parseScoringLines lines).attack ∧
    0 ≤ (parseScoringLines lines).block ∧
    0 ≤ (parseScoringLines lines).serve ∧
    0 ≤ (parseScoringLines lines).opp_error ∧
    0 ≤ (parseScoringLines lines).total_points ∧
    0 ≤ (parseScoringLines lines).top_scorer_1 ∧
    0 ≤ (parseScoringLines lines).top_scorer_2 := by
  obtain ⟨ha, hb, hs, ho, htp⟩ := parseScoringLines_sums lines
  obtain ⟨ht1, ht2⟩ := parseScoringLines_top lines
  obtain ⟨g1, g2, g3, g4⟩ := topTwo_spec (scoringTotals lines) (scoringTotals_nonneg lines)
  have hsum : ∀ i : Nat, 0 ≤ ((qualLines lines).map (lineNumAt i)).sum := by
    intro i
    refine List.sum_nonneg ?_
    intro x hx
    rcases List.mem_map.mp hx with ⟨tokens, _, rfl⟩
    exact lineNumAt_nonneg i tokens
  refine ⟨ha ▸ hsum 1, hb ▸ hsum 2, hs ▸ hsum 3, ho ▸ hsum 4, ?_, ?_, ?_⟩
  · rw [htp]
    have := hsum 1; have := hsum 2; have := hsum 3; have := hsum 4
    omega
  · rw [ht1, g1]
    exact foldr_max_nonneg _
  · rw [ht2]
    exact g3

/-! ## Result-shape lemmas for the effectful layer -/

theorem parse_scoring_err {w : ImageWorld} {i : String} {e : VNLError}
    (h : _parse_scoring w i = .error e) : e = .imageUnreadable i ∧ w i = none := by
  cases hw : w i with
  | none =>
    simp only [_parse_scoring, _ocr_lines, hw, Except.error.injEq] at h
    exact ⟨h.symm, rfl⟩
  | some t => simp [_parse_scoring, _ocr_lines, hw] at h

theorem parse_scoring_ok {w : ImageWorld} {i text : String} (h : w i = some text) :
    _parse_scoring w i = .ok (parseScoringLines (ocrTokenize text)) := by
  simp [_parse_scoring, _ocr_lines, h]

theorem parse_simple_err {w : ImageWorld} {i : String} {e : VNLError}
    (h : _parse_simple_total w i = .error e) : e = .imageUnreadable i ∧ w i = none := by
  cases hw : w i with
  | none =>
    simp only [_parse_simple_total, _ocr_lines, hw, Except.error.injEq] at h
    exact ⟨h.symm, rfl⟩
  | some t => simp [_parse_simple_total, _ocr_lines, hw] at h

theorem parse_simple_ok {w : ImageWorld} {i text : String} (h : w i = some text) :
    _parse_simple_total w i = .ok (parseSimpleTotalLines (ocrTokenize text)) := by
  simp [_parse_simple_total, _ocr_lines, h]

/-- The function `_parse_team` reads exactly the scoring, dig, reception and set images:
two worlds agreeing there give equal results on the same image dictionary. -/
theorem parse_team_congr {w1 w2 : ImageWorld} {imgs : TeamImages}
    (hs : w1 imgs.scoring = w2 imgs.scoring) (hd : w1 imgs.dig = w2 imgs.dig)
    (hr : w1 imgs.reception = w2 imgs.reception) (hst : w1 imgs.set = w2 imgs.set) :
    _parse_team w1 imgs = _parse_team w2 imgs := by
  simp only [_parse_team, _parse_scoring, _parse_simple_total, _ocr_lines,
    hs, hd, hr, hst]

/-- The `TeamStats` that `_parse_team` assembles from the OCR texts of its
four read images. -/
def teamStatsOf (t1 t2 t3 t4 : String) : TeamStats :=
  { attack := (parseScoringLines (ocrTokenize t1)).attack
    block := (parseScoringLines (ocrTokenize t1)).block
    serve := (parseScoringLines (ocrTokenize t1)).serve
    opp_error := (parseScoringLines (ocrTokenize t1)).opp_error
    total_points := (parseScoringLines (ocrTokenize t1)).total_points
    dig := parseSimpleTotalLines (ocrTokenize t2)
    reception := parseSimpleTotalLines (ocrTokenize t3)
    set := parseSimpleTotalLines (ocrTokenize t4)
    top_scorer_1 := (parseScoringLines (ocrTokenize t1)).top_scorer_1
    top_scorer_2 := (parseScoringLines (ocrTokenize t1)).top_scorer_2 }

theorem parse_team_eval {w : ImageWorld} {imgs : TeamImages} {t1 t2 t3 t4 : String}
    (h1 : w imgs.scoring = some t1) (h2 : w imgs.dig = some t2)
    (h3 : w imgs.reception = some t3) (h4 : w imgs.set = some t4) :
    _parse_team w imgs = .ok (teamStatsOf t1 t2 t3 t4) := by
  unfold _parse_team
  rw [parse_scoring_ok h1, parse_simple_ok h2, parse_simple_ok h3, parse_simple_ok h4]
  rfl

/-- Every error of `_parse_team` is an `imageUnreadable` on one of the four
images it reads, and that image is indeed unreadable. -/
theorem parse_team_err_shape {w : ImageWorld} {imgs : TeamImages} {e : VNLError}
    (h : _parse_team w imgs = .error e) :
    ∃ p, e = .imageUnreadable p ∧ w p = none ∧
      (p = imgs.scoring ∨ p = imgs.dig ∨ p = imgs.reception ∨ p = imgs.set) := by
  unfold _parse_team at h
  cases h1 : _parse_scoring w imgs.scoring with
  | error e1 =>
    rw [h1] at h
    simp only [Except.error.injEq] at h
    obtain ⟨he, hw⟩ := parse_scoring_err h1
    exact ⟨imgs.scoring, h ▸ he, hw, Or.inl rfl⟩
  | ok sc =>
    rw [h1] at h
    cases h2 : _parse_simple_total w imgs.dig with
    | error e2 =>
      rw [h2] at h
      simp only [Except.error.injEq] at h
      obtain ⟨he, hw⟩ := parse_simple_err h2
      exact ⟨imgs.dig, h ▸ he, hw, Or.inr (Or.inl rfl)⟩
    | ok d =>
      rw [h2] at h
      cases h3 : _parse_simple_total w imgs.reception with
      | error e3 =>
        rw [h3] at h
        simp only [Except.error.injEq] at h
        obtain ⟨he, hw⟩ := parse_simple_err h3
        exact ⟨imgs.reception, h ▸ he, hw, Or.inr (Or.inr (Or.inl rfl))⟩
      | ok r =>
        rw [h3] at h
        cases h4 : _parse_simple_total w imgs.set with
        | error e4 =>
          rw [h4] at h
          simp only [Except.error.injEq] at h
          obtain ⟨he, hw⟩ := parse_simple_err h4
          exact ⟨imgs.set, h ▸ he, hw, Or.inr (Or.inr (Or.inr rfl))⟩
        | ok s => rw [h4] at h; simp at h

/-- When `_parse_team` succeeds, all four images it reads were readable. -/
theorem parse_team_ok_readable {w : ImageWorld} {imgs : TeamImages} {ts : TeamStats}
    (h : _parse_team w imgs = .ok ts) :
    w imgs.scoring ≠ none ∧ w imgs.dig ≠ none ∧
    w imgs.reception ≠ none ∧ w imgs.set ≠ none := by
  unfold _parse_team at h
  cases h1 : _parse_scoring w imgs.scoring with
  | error e => rw [h1] at h; simp at h
  | ok sc =>
    rw [h1] at h
    cases h2 : _parse_simple_total w imgs.dig with
    | error e => rw [h2] at h; simp at h
    | ok d =>
      rw [h2] at h
      cases h3 : _parse_simple_total w imgs.reception with
      | error e => rw [h3] at h; simp at h
      | ok r =>
        rw [h3] at h
        cases h4 : _parse_simple_total w imgs.set with
        | error e => rw [h4] at h; simp at h
        | ok s =>
          refine ⟨?_, ?_, ?_, ?_⟩ <;> intro hn
          · exact absurd h1 (by simp [_parse_scoring, _ocr_lines, hn])
          · exact absurd h2 (by simp [_parse_simple_total, _ocr_lines, hn])
          · exact absurd h3 (by simp [_parse_simple_total, _ocr_lines, hn])
          · exact absurd h4 (by simp [_parse_simple_total, _ocr_lines, hn])

/-- A successful team parse transfers to any world/dictionary pair whose four
read images carry the same content. -/
theorem parse_team_ok_congr {w1 w2 : ImageWorld} {i1 i2 : TeamImages} {ts : TeamStats}
    (hs : w1 i1.scoring = w2 i2.scoring) (hd : w1 i1.dig = w2 i2.dig)
    (hr : w1 i1.reception = w2 i2.reception) (hst : w1 i1.set = w2 i2.set)
    (h : _parse_team w2 i2 = .ok ts) : _parse_team w1 i1 = .ok ts := by
  obtain ⟨n1, n2, n3, n4⟩ := parse_team_ok_readable h
  obtain ⟨t1, ht1⟩ := Option.ne_none_iff_exists'.mp n1
  obtain ⟨t2, ht2⟩ := Option.ne_none_iff_exists'.mp n2
  obtain ⟨t3, ht3⟩ := Option.ne_none_iff_exists'.mp n3
  obtain ⟨t4, ht4⟩ := Option.ne_none_iff_exists'.mp n4
  rw [parse_team_eval ht1 ht2 ht3 ht4] at h
  rw [parse_team_eval (hs.trans ht1) (hd.trans ht2) (hr.trans ht3) (hst.trans ht4)]
  exact h

/-- If any of the four read images of a team is unreadable, `_parse_team`
fails. -/
theorem parse_team_err_of_unread {w : ImageWorld} {imgs : TeamImages}
    (h : w imgs.scoring = none ∨ w imgs.dig = none ∨
         w imgs.reception = none ∨ w imgs.set = none) :
    ∃ e, _parse_team w imgs = .error e := by
  cases hp : _parse_team w imgs with
  | error e => exact ⟨e, rfl⟩
  | ok ts =>
    obtain ⟨n1, n2, n3, n4⟩ := parse_team_ok_readable hp
    rcases h with h | h | h | h
    · exact absurd h n1
    · exact absurd h n2
    · exact absurd h n3
    · exact absurd h n4

/-- The missing-value check of `_parse_match` never fires on a constructed
row: every field of `mkRow` is assigned. -/
theorem rowHasNone_mkRow (a b : TeamStats) (label : Int) :
    rowHasNone (mkRow a b label) = false := rfl

/-- Every error of `_parse_match` is an `imageUnreadable` on an unreadable
image; in particular `incompleteMatchData` is never raised. -/
theorem parse_match_err_shape {w : ImageWorld} {dir : String} {l : Int} {e : VNLError}
    (h : _parse_match w dir l = .error e) :
    ∃ p, e = .imageUnreadable p ∧ w p = none := by
  simp only [_parse_match] at h
  cases hA : _parse_team w (teamImages dir "teamA") with
  | error eA =>
    rw [hA] at h
    simp only [Except.error.injEq] at h
    obtain ⟨p, hp, hw, _⟩ := parse_team_err_shape hA
    exact ⟨p, h ▸ hp, hw⟩
  | ok ta =>
    rw [hA] at h
    cases hB : _parse_team w (teamImages dir "teamB") with
    | error eB =>
      rw [hB] at h
      simp only [Except.error.injEq] at h
      obtain ⟨p, hp, hw, _⟩ := parse_team_err_shape hB
      exact ⟨p, h ▸ hp, hw⟩
    | ok tb =>
      rw [hB] at h
      simp [rowHasNone_mkRow] at h

/-! ## Claim theorems -/

/-- A world in which every image is readable and carries the same OCR text;
used to instantiate witness theorems. -/
def constWorld (text : String) : ImageWorld := fun _ => some text

/-- Claim C1: for every scoring-sheet image, the scoring parser accumulates
only lines yielding 5 or more extracted numbers; from each qualifying line
the numbers at positions 1, 2, 3, 4 (0-indexed) are summed into attack,
block, serve and opp_error (position 0 is ignored), and the returned
total_points equals exactly attack + block + serve + opp_error of the
accumulated sums. -/
theorem scoring_accumulation_and_total (w : ImageWorld) (image text : String)
    (hw : w image = some text) (r : ScoringResult)
    (hr : _parse_scoring w image = .ok r) :
    r.attack = ((qualLines (ocrTokenize text)).map (lineNumAt 1)).sum ∧
    r.block = ((qualLines (ocrTokenize text)).map (lineNumAt 2)).sum ∧
    r.serve = ((qualLines (ocrTokenize text)).map (lineNumAt 3)).sum ∧
    r.opp_error = ((qualLines (ocrTokenize text)).map (lineNumAt 4)).sum ∧
    r.total_points = r.attack + r.block + r.serve + r.opp_error := by
  rw [parse_scoring_ok hw] at hr
  simp only [Except.ok.injEq] at hr
  subst hr
  exact parseScoringLines_sums (ocrTokenize text)

/-- The scoring result of the single line `"1 10 5 3 2"`: positions 1–4 give
attack 10, block 5, serve 3, opp_error 2; total 20; a single player total. -/
def c1Row : ScoringResult :=
  { attack := 10, block := 5, serve := 3, opp_error := 2,
    total_points := 20, top_scorer_1 := 20, top_scorer_2 := 0 }

theorem scoring_accumulation_and_total_witness :
    constWorld "1 10 5 3 2" "img" = some "1 10 5 3 2" ∧
    _parse_scoring (constWorld "1 10 5 3 2") "img" = .ok c1Row ∧
    (c1Row.attack = ((qualLines (ocrTokenize "1 10 5 3 2")).map (lineNumAt 1)).sum ∧
     c1Row.block = ((qualLines (ocrTokenize "1 10 5 3 2")).map (lineNumAt 2)).sum ∧
     c1Row.serve = ((qualLines (ocrTokenize "1 10 5 3 2")).map (lineNumAt 3)).sum ∧
     c1Row.opp_error = ((qualLines (ocrTokenize "1 10 5 3 2")).map (lineNumAt 4)).sum ∧
     c1Row.total_points = c1Row.attack + c1Row.block + c1Row.serve + c1Row.opp_error) :=
  ⟨rfl, rfl,
    scoring_accumulation_and_total (constWorld "1 10 5 3 2") "img" "1 10 5 3 2"
      rfl c1Row rfl⟩

/-- Claim C5: for every scoring-sheet image, top_scorer_1 ≥ top_scorer_2 ≥ 0;
top_scorer_1 is the maximum of the per-player totals (sum of a qualifying
line's positions 1–4) and top_scorer_2 is the second-highest (the maximum
after removing one copy of the maximum).  `List.foldr max 0` of the
(non-negative) totals is their maximum, and it is 0 when there are no
qualifying lines; the erase-form makes top_scorer_2 equal 0 when fewer than
two qualifying lines exist. -/
theorem scoring_top_scorer_ranking (w : ImageWorld) (image text : String)
    (hw : w image = some text) (r : ScoringResult)
    (hr : _parse_scoring w image = .ok r) :
    0 ≤ r.top_scorer_2 ∧ r.top_scorer_2 ≤ r.top_scorer_1 ∧
    r.top_scorer_1 = (scoringTotals (ocrTokenize text)).foldr max 0 ∧
    r.top_scorer_2 =
      ((scoringTotals (ocrTokenize text)).erase
        ((scoringTotals (ocrTokenize text)).foldr max 0)).foldr max 0 := by
  rw [parse_scoring_ok hw] at hr
  simp only [Except.ok.injEq] at hr
  subst hr
  obtain ⟨ht1, ht2⟩ := parseScoringLines_top (ocrTokenize text)
  obtain ⟨g1, g2, g3, g4⟩ :=
    topTwo_spec (scoringTotals (ocrTokenize text)) (scoringTotals_nonneg _)
  rw [ht1, ht2]
  exact ⟨g3, g4, g1, g2⟩

/-- The scoring result of the two-line sheet used by the C5 witness: player
totals 20 and 12. -/
def c5Row : ScoringResult :=
  { attack := 18, block := 7, serve := 4, opp_error := 3,
    total_points := 32, top_scorer_1 := 20, top_scorer_2 := 12 }

theorem scoring_top_scorer_ranking_witness :
    constWorld "1 10 5 3 2\n1 8 2 1 1" "img" = some "1 10 5 3 2\n1 8 2 1 1" ∧
    _parse_scoring (constWorld "1 10 5 3 2\n1 8 2 1 1") "img" = .ok c5Row ∧
    (0 ≤ c5Row.top_scorer_2 ∧ c5Row.top_scorer_2 ≤ c5Row.top_scorer_1 ∧
     c5Row.top_scorer_1 = (scoringTotals (ocrTokenize "1 10 5 3 2\n1 8 2 1 1")).foldr max 0 ∧
     c5Row.top_scorer_2 =
       ((scoringTotals (ocrTokenize "1 10 5 3 2\n1 8 2 1 1")).erase
         ((scoringTotals (ocrTokenize "1 10 5 3 2\n1 8 2 1 1")).foldr max 0)).foldr max 0) :=
  ⟨rfl, rfl,
    scoring_top_scorer_ranking (constWorld "1 10 5 3 2\n1 8 2 1 1") "img"
      "1 10 5 3 2\n1 8 2 1 1" rfl c5Row rfl⟩

/-- Claim C6: the numeric extractor returns one integer per token containing
at least one digit, preserving token order — it is the map of the
first-digit-run value over the digit-containing tokens; a digitless token
contributes nothing, and only the first digit run of a token is converted
("12%" yields 12, "A1B2" yields only 1). -/
theorem numeric_extractor_first_run_per_token (tokens : List (List Char)) :
    _extract_numbers tokens = (tokens.filter hasDigit).map firstRunValue ∧
    _extract_numbers ["12%".data, "A1B2".data] = [12, 1] := by
  constructor
  · induction tokens with
    | nil => rfl
    | cons t ts ih =>
      by_cases h : hasDigit t
      · have hc : _extract_numbers (t :: ts) = firstRunValue t :: _extract_numbers ts := by
          simp [_extract_numbers, List.filterMap_cons, firstNumber_eq, h]
        rw [hc, ih]
        simp [List.filter_cons, h]
      · have hc : _extract_numbers (t :: ts) = _extract_numbers ts := by
          simp [_extract_numbers, List.filterMap_cons, firstNumber_eq, h]
        rw [hc, ih]
        simp [List.filter_cons, h]
  · decide

/-- Claim C9: every integer produced by the numeric extractor is
non-negative (the digit-run pattern captures no sign, so "-5" yields 5), and
consequently every field of a successfully parsed `TeamStats` is ≥ 0. -/
theorem extracted_numbers_nonneg (tokens : List (List Char)) (n : Int)
    (hn : n ∈ _extract_numbers tokens) (w : ImageWorld) (imgs : TeamImages)
    (ts : TeamStats) (hts : _parse_team w imgs = .ok ts) :
    0 ≤ n ∧ firstNumber "-5".data = some 5 ∧
    (0 ≤ ts.attack ∧ 0 ≤ ts.block ∧ 0 ≤ ts.serve ∧ 0 ≤ ts.opp_error ∧
     0 ≤ ts.total_points ∧ 0 ≤ ts.dig ∧ 0 ≤ ts.reception ∧ 0 ≤ ts.set ∧
     0 ≤ ts.top_scorer_1 ∧ 0 ≤ ts.top_scorer_2) := by
  refine ⟨extract_nonneg tokens n hn, by decide, ?_⟩
  obtain ⟨n1, n2, n3, n4⟩ := parse_team_ok_readable hts
  obtain ⟨t1, ht1⟩ := Option.ne_none_iff_exists'.mp n1
  obtain ⟨t2, ht2⟩ := Option.ne_none_iff_exists'.mp n2
  obtain ⟨t3, ht3⟩ := Option.ne_none_iff_exists'.mp n3
  obtain ⟨t4, ht4⟩ := Option.ne_none_iff_exists'.mp n4
  rw [parse_team_eval ht1 ht2 ht3 ht4] at hts
  simp only [Except.ok.injEq] at hts
  subst hts
  obtain ⟨ga, gb, gs, go, gt, g1, g2⟩ := parseScoringLines_nonneg (ocrTokenize t1)
  exact ⟨ga, gb, gs, go, gt,
    parseSimpleTotalLines_nonneg (ocrTokenize t2),
    parseSimpleTotalLines_nonneg (ocrTokenize t3),
    parseSimpleTotalLines_nonneg (ocrTokenize t4), g1, g2⟩

/-- The team statistics the C9 witness world produces. -/
def c9Stats : TeamStats :=
  { attack := 10, block := 5, serve := 3, opp_error := 2, total_points := 20,
    dig := 1, reception := 1, set := 1, top_scorer_1 := 20, top_scorer_2 := 0 }

theorem extracted_numbers_nonneg_witness :
    (42 : Int) ∈ _extract_numbers [['4', '2']] ∧
    _parse_team (constWorld "1 10 5 3 2") (teamImages "m" "teamA") = .ok c9Stats ∧
    (0 ≤ (42 : Int) ∧ firstNumber "-5".data = some 5 ∧
     (0 ≤ c9Stats.attack ∧ 0 ≤ c9Stats.block ∧ 0 ≤ c9Stats.serve ∧
      0 ≤ c9Stats.opp_error ∧ 0 ≤ c9Stats.total_points ∧ 0 ≤ c9Stats.dig ∧
      0 ≤ c9Stats.reception ∧ 0 ≤ c9Stats.set ∧ 0 ≤ c9Stats.top_scorer_1 ∧
      0 ≤ c9Stats.top_scorer_2)) :=
  ⟨by decide, rfl,
    extracted_numbers_nonneg [['4', '2']] 42 (by decide)
      (constWorld "1 10 5 3 2") (teamImages "m" "teamA") c9Stats rfl⟩

/-- Claim C7: the team aggregator reads only the scoring, dig, reception and
set sheets, so two worlds whose images agree on those four sheets (but differ
arbitrarily on attack, block and serve) produce identical results — in
particular identical `TeamStats` records. -/
theorem team_stats_depend_only_on_read_sheets (w1 w2 : ImageWorld)
    (imgs : TeamImages)
    (hs : w1 imgs.scoring = w2 imgs.scoring) (hd : w1 imgs.dig = w2 imgs.dig)
    (hr : w1 imgs.reception = w2 imgs.reception)
    (hst : w1 imgs.set = w2 imgs.set) :
    _parse_team w1 imgs = _parse_team w2 imgs :=
  parse_team_congr hs hd hr hst

/-- A world agreeing with `constWorld "1 10 5 3 2"` except on the attack
sheet of team A of match `"m"`. -/
def c7World : ImageWorld := fun p =>
  if p = teamPath "m" "teamA" "attack" then some "999 999 999 999 999"
  else some "1 10 5 3 2"

theorem team_stats_depend_only_on_read_sheets_witness :
    constWorld "1 10 5 3 2" (teamImages "m" "teamA").scoring
      = c7World (teamImages "m" "teamA").scoring ∧
    constWorld "1 10 5 3 2" (teamImages "m" "teamA").dig
      = c7World (teamImages "m" "teamA").dig ∧
    constWorld "1 10 5 3 2" (teamImages "m" "teamA").reception
      = c7World (teamImages "m" "teamA").reception ∧
    constWorld "1 10 5 3 2" (teamImages "m" "teamA").set
      = c7World (teamImages "m" "teamA").set ∧
    constWorld "1 10 5 3 2" (teamImages "m" "teamA").attack
      ≠ c7World (teamImages "m" "teamA").attack ∧
    _parse_team (constWorld "1 10 5 3 2") (teamImages "m" "teamA")
      = _parse_team c7World (teamImages "m" "teamA") :=
  ⟨by decide, by decide, by decide, by decide, by decide,
    team_stats_depend_only_on_read_sheets (constWorld "1 10 5 3 2") c7World
      (teamImages "m" "teamA") (by decide) (by decide) (by decide) (by decide)⟩

/-- Claim C8: whenever the per-team parsers succeed for both teams, the
missing-value check in `_parse_match` never fires — every field of the
constructed row is assigned — so the `incompleteMatchData` branch is
unreachable and the fully populated row is returned. -/
theorem match_row_never_incomplete (w : ImageWorld) (dir : String) (label : Int)
    (ta tb : TeamStats)
    (ha : _parse_team w (teamImages dir "teamA") = .ok ta)
    (hb : _parse_team w (teamImages dir "teamB") = .ok tb) :
    rowHasNone (mkRow ta tb label) = false ∧
    _parse_match w dir label = .ok (mkRow ta tb label) ∧
    _parse_match w dir label ≠ .error (.incompleteMatchData dir) := by
  have h2 : _parse_match w dir label = .ok (mkRow ta tb label) := by
    simp only [_parse_match]
    rw [ha, hb]
    simp [rowHasNone_mkRow]
  exact ⟨rfl, h2, by rw [h2]; simp⟩

theorem match_row_never_incomplete_witness :
    _parse_team (constWorld "1 10 5 3 2") (teamImages "m" "teamA") = .ok c9Stats ∧
    _parse_team (constWorld "1 10 5 3 2") (teamImages "m" "teamB") = .ok c9Stats ∧
    (rowHasNone (mkRow c9Stats c9Stats 1) = false ∧
     _parse_match (constWorld "1 10 5 3 2") "m" 1 = .ok (mkRow c9Stats c9Stats 1) ∧
     _parse_match (constWorld "1 10 5 3 2") "m" 1
       ≠ .error (.incompleteMatchData "m")) :=
  ⟨rfl, rfl,
    match_row_never_incomplete (constWorld "1 10 5 3 2") "m" 1 c9Stats c9Stats
      rfl rfl⟩

/-- The row with every one of the 10 diff fields negated and the label `l`
replaced by `1 - l` (the flip within {0, 1}). -/
def negFlipRow (r : MatchRow) : MatchRow :=
  { attack_diff := r.attack_diff.map (fun x => -x)
    block_diff := r.block_diff.map (fun x => -x)
    serve_diff := r.serve_diff.map (fun x => -x)
    opp_error_diff := r.opp_error_diff.map (fun x => -x)
    total_points_diff := r.total_points_diff.map (fun x => -x)
    dig_diff := r.dig_diff.map (fun x => -x)
    reception_diff := r.reception_diff.map (fun x => -x)
    set_diff := r.set_diff.map (fun x => -x)
    top_scorer_1_diff := r.top_scorer_1_diff.map (fun x => -x)
    top_scorer_2_diff := r.top_scorer_2_diff.map (fun x => -x)
    label := r.label.map (fun x => 1 - x) }

/-- Claim C4: swapping the two teams' image sets (a world `w'` that shows
team B's images under team A's paths and vice versa) and replacing the label
`l ∈ {0, 1}` by `1 - l` yields the row with every diff field negated and the
label flipped. -/
theorem team_swap_negates_diffs (w w' : ImageWorld) (dir : String) (l : Int)
    (hl : l = 0 ∨ l = 1)
    (hswap : ∀ n ∈ TEAM_SCREENS,
      w' (teamPath dir "teamA" n) = w (teamPath dir "teamB" n) ∧
      w' (teamPath dir "teamB" n) = w (teamPath dir "teamA" n))
    (row : MatchRow) (h : _parse_match w dir l = .ok row) :
    _parse_match w' dir (1 - l) = .ok (negFlipRow row) := by
  simp only [_parse_match] at h
  cases hA : _parse_team w (teamImages dir "teamA") with
  | error e => rw [hA] at h; simp at h
  | ok ta =>
    rw [hA] at h
    cases hB : _parse_team w (teamImages dir "teamB") with
    | error e => rw [hB] at h; simp at h
    | ok tb =>
      rw [hB] at h
      simp only [rowHasNone_mkRow, Bool.false_eq_true, if_false,
        Except.ok.injEq] at h
      have hsc := hswap "scoring" (by simp [TEAM_SCREENS])
      have hdg := hswap "dig" (by simp [TEAM_SCREENS])
      have hrc := hswap "reception" (by simp [TEAM_SCREENS])
      have hse := hswap "set" (by simp [TEAM_SCREENS])
      have hA' : _parse_team w' (teamImages dir "teamA") = .ok tb :=
        @parse_team_ok_congr w' w (teamImages dir "teamA") (teamImages dir "teamB")
          tb hsc.1 hdg.1 hrc.1 hse.1 hB
      have hB' : _parse_team w' (teamImages dir "teamB") = .ok ta :=
        @parse_team_ok_congr w' w (teamImages dir "teamB") (teamImages dir "teamA")
          ta hsc.2 hdg.2 hrc.2 hse.2 hA
      simp only [_parse_match]
      rw [hA', hB']
      simp only [rowHasNone_mkRow, Bool.false_eq_true, if_false,
        Except.ok.injEq]
      rw [← h]
      simp [mkRow, negFlipRow, neg_sub]

theorem team_swap_negates_diffs_witness :
    ((1 : Int) = 0 ∨ (1 : Int) = 1) ∧
    (∀ n ∈ TEAM_SCREENS,
      constWorld "1 10 5 3 2" (teamPath "m" "teamA" n)
        = constWorld "1 10 5 3 2" (teamPath "m" "teamB" n) ∧
      constWorld "1 10 5 3 2" (teamPath "m" "teamB" n)
        = constWorld "1 10 5 3 2" (teamPath "m" "teamA" n)) ∧
    _parse_match (constWorld "1 10 5 3 2") "m" 1 = .ok (mkRow c9Stats c9Stats 1) ∧
    _parse_match (constWorld "1 10 5 3 2") "m" (1 - 1)
      = .ok (negFlipRow (mkRow c9Stats c9Stats 1)) :=
  ⟨Or.inr rfl, fun _ _ => ⟨rfl, rfl⟩, rfl,
    team_swap_negates_diffs (constWorld "1 10 5 3 2") (constWorld "1 10 5 3 2")
      "m" 1 (Or.inr rfl) (fun _ _ => ⟨rfl, rfl⟩) (mkRow c9Stats c9Stats 1) rfl⟩

/-- If one of the eight actually-read images of a match is unreadable,
`_parse_match` fails with `imageUnreadable` on some unreadable image. -/
theorem parse_match_unread {w : ImageWorld} {dir : String} {l : Int}
    (hmiss : ∃ pfx ∈ (["teamA", "teamB"] : List String),
      ∃ n ∈ (["scoring", "dig", "reception", "set"] : List String),
        w (teamPath dir pfx n) = none) :
    ∃ p, w p = none ∧ _parse_match w dir l = .error (.imageUnreadable p) := by
  cases hm : _parse_match w dir l with
  | error e =>
    obtain ⟨p, hp, hw⟩ := parse_match_err_shape hm
    subst hp
    exact ⟨p, hw, rfl⟩
  | ok row =>
    exfalso
    simp only [_parse_match] at hm
    cases hA : _parse_team w (teamImages dir "teamA") with
    | error e => rw [hA] at hm; simp at hm
    | ok ta =>
      rw [hA] at hm
      cases hB : _parse_team w (teamImages dir "teamB") with
      | error e => rw [hB] at hm; simp at hm
      | ok tb =>
        obtain ⟨a1, a2, a3, a4⟩ := parse_team_ok_readable hA
        obtain ⟨b1, b2, b3, b4⟩ := parse_team_ok_readable hB
        obtain ⟨pfx, hpfx, n, hn, hnone⟩ := hmiss
        simp only [List.mem_cons, List.mem_singleton, List.not_mem_nil,
          or_false] at hpfx hn
        rcases hpfx with rfl | rfl <;> rcases hn with rfl | rfl | rfl | rfl
        · exact a1 hnone
        · exact a2 hnone
        · exact a3 hnone
        · exact a4 hnone
        · exact b1 hnone
        · exact b2 hnone
        · exact b3 hnone
        · exact b4 hnone

/-- Claim C2, amended: if any of the eight images actually read (the
scoring, dig, reception and set sheets of either team) is missing or
undecodable, the match fails with `imageUnreadable` and the error propagates
out of `build_dataset`; the attack, block and serve images are never read,
so their absence does not fail (see the counterexample theorem). -/
theorem missing_read_image_fails (w : ImageWorld) (s dir : String) (label : Int)
    (hs : parseSpec s = .ok (dir, label))
    (hmiss : ∃ pfx ∈ (["teamA", "teamB"] : List String),
      ∃ n ∈ (["scoring", "dig", "reception", "set"] : List String),
        w (teamPath dir pfx n) = none) :
    ∃ p, w p = none ∧ build_dataset w [s] = .error (.imageUnreadable p) := by
  obtain ⟨p, hw, hm⟩ := @parse_match_unread w dir label hmiss
  refine ⟨p, hw, ?_⟩
  simp only [build_dataset, collectRows, hs, hm]

/-- A world in which only `teamA_dig.png` of match `m` is unreadable. -/
def c2MissWorld : ImageWorld := fun p =>
  if p = teamPath "m" "teamA" "dig" then none else some "1 10 5 3 2"

theorem missing_read_image_fails_witness :
    parseSpec "m:1" = .ok ("m", 1) ∧
    (∃ pfx ∈ (["teamA", "teamB"] : List String),
      ∃ n ∈ (["scoring", "dig", "reception", "set"] : List String),
        c2MissWorld (teamPath "m" pfx n) = none) ∧
    (∃ p, c2MissWorld p = none ∧
      build_dataset c2MissWorld ["m:1"] = .error (.imageUnreadable p)) :=
  ⟨rfl, ⟨"teamA", by decide, "dig", by decide, rfl⟩,
    missing_read_image_fails c2MissWorld "m:1" "m" 1 rfl
      ⟨"teamA", by decide, "dig", by decide, rfl⟩⟩

/-- A world in which only `teamA_attack.png` of match `m` is unreadable. -/
def c2World : ImageWorld := fun p =>
  if p = teamPath "m" "teamA" "attack" then none else some "1 10 5 3 2"

/-- Claim C2 counterexample: `teamA_attack.png` is one of the 14 canonical
images and is missing, yet the match parses fine and `build_dataset`
succeeds (writes a file) instead of failing with `imageUnreadable`. -/
theorem missing_attack_image_ignored :
    c2World (teamPath "m" "teamA" "attack") = none ∧
    build_dataset c2World ["m:1"] =
      .ok { header := COLUMNS, rows := [mkRow c9Stats c9Stats 1] } :=
  ⟨rfl, rfl⟩

/-- Every specification of a batch whose row collection succeeded was
well-formed. -/
theorem collectRows_ok_parse {w : ImageWorld} :
    ∀ (specs : List String) (rows : List MatchRow),
      collectRows w specs = .ok rows → ∀ s ∈ specs, ∃ pr, parseSpec s = .ok pr := by
  intro specs
  induction specs with
  | nil => intro rows _ s hs; simp at hs
  | cons spec rest ih =>
    intro rows h s hs
    simp only [collectRows] at h
    cases hp : parseSpec spec with
    | error e => rw [hp] at h; simp at h
    | ok pr =>
      rcases List.mem_cons.mp hs with rfl | hs
      · exact ⟨pr, hp⟩
      · obtain ⟨dir, label⟩ := pr
        simp only [hp] at h
        cases hm : _parse_match w dir label with
        | error e => simp [hm] at h
        | ok row =>
          simp only [hm] at h
          cases hc : collectRows w rest with
          | error e => simp [hc] at h
          | ok rows2 => exact ih rows2 hc s hs

/-- When every specification before the malformed one processes
successfully, the row collection aborts exactly at the malformed one. -/
theorem collectRows_prefix_err {w : ImageWorld} {bad : String} {e : VNLError}
    (hbad : parseSpec bad = .error e) (post : List String) :
    ∀ pre : List String,
      (∀ s ∈ pre, ∃ dir label row, parseSpec s = .ok (dir, label) ∧
        _parse_match w dir label = .ok row) →
      collectRows w (pre ++ bad :: post) = .error e := by
  intro pre
  induction pre with
  | nil =>
    intro _
    simp only [List.nil_append, collectRows, hbad]
  | cons s pre2 ih =>
    intro hpre
    obtain ⟨dir, label, row, hps, hpm⟩ := hpre s (List.mem_cons_self s pre2)
    have ih2 := ih (fun t ht => hpre t (List.mem_cons_of_mem s ht))
    have ih3 : collectRows w (pre2.append (bad :: post)) = .error e := ih2
    simp only [List.cons_append, collectRows, hps, hpm, ih2, ih3]

/-- Claim C3, amended: a batch containing a malformed specification never
produces an output file; the error is `invalidMatchSpecification` for the
malformed entry provided every entry before it processes successfully (an
earlier entry with an unreadable image aborts first with `imageUnreadable`
instead — see the counterexample theorem). -/
theorem malformed_spec_aborts (w : ImageWorld) (pre post : List String)
    (bad : String)
    (hbad : parseSpec bad = .error (.invalidMatchSpecification bad)) :
    (∀ csv, build_dataset w (pre ++ bad :: post) ≠ .ok csv) ∧
    ((∀ s ∈ pre, ∃ dir label row, parseSpec s = .ok (dir, label) ∧
        _parse_match w dir label = .ok row) →
      build_dataset w (pre ++ bad :: post)
        = .error (.invalidMatchSpecification bad)) := by
  constructor
  · intro csv hok
    simp only [build_dataset] at hok
    cases hc : collectRows w (pre ++ bad :: post) with
    | error e => rw [hc] at hok; simp at hok
    | ok rows =>
      obtain ⟨pr, hpr⟩ := collectRows_ok_parse (pre ++ bad :: post) rows hc bad
        (List.mem_append_right pre (List.mem_cons_self bad post))
      rw [hbad] at hpr
      simp at hpr
  · intro hpre
    have hc := collectRows_prefix_err hbad post pre hpre
    simp only [build_dataset, hc]

/-- A world in which no image is readable. -/
def c3World : ImageWorld := fun _ => none

/-- Claim C3 counterexample: the batch `["m:1", "match1"]` contains the
malformed entry `"match1"`, yet with the first match's images unreadable the
run aborts with `imageUnreadable`, not `invalidMatchSpecification`. -/
theorem malformed_spec_masked_by_unreadable_image :
    parseSpec "match1" = .error (.invalidMatchSpecification "match1") ∧
    build_dataset c3World ["m:1", "match1"]
      = .error (.imageUnreadable (teamPath "m" "teamA" "scoring")) ∧
    VNLError.imageUnreadable (teamPath "m" "teamA" "scoring")
      ≠ .invalidMatchSpecification "m:1" ∧
    VNLError.imageUnreadable (teamPath "m" "teamA" "scoring")
      ≠ .invalidMatchSpecification "match1" :=
  ⟨rfl, rfl, by decide, by decide⟩

theorem malformed_spec_aborts_witness :
    parseSpec "match1" = .error (.invalidMatchSpecification "match1") ∧
    ((∀ csv, build_dataset (constWorld "1 10 5 3 2") (["m:1"] ++ "match1" :: [])
        ≠ .ok csv) ∧
     ((∀ s ∈ (["m:1"] : List String), ∃ dir label row,
         parseSpec s = .ok (dir, label) ∧
         _parse_match (constWorld "1 10 5 3 2") dir label = .ok row) →
       build_dataset (constWorld "1 10 5 3 2") (["m:1"] ++ "match1" :: [])
         = .error (.invalidMatchSpecification "match1"))) :=
  ⟨rfl, malformed_spec_aborts (constWorld "1 10 5 3 2") ["m:1"] [] "match1" rfl⟩

/-- Claim C10: on an empty sequence of match specifications, `build_dataset`
raises no error and writes a file with zero data rows and an empty header —
none of the 11 contract columns appears. -/
theorem empty_batch_empty_csv (w : ImageWorld) :
    build_dataset w [] = .ok { header := [], rows := [] } ∧
    COLUMNS.length = 11 ∧
    (∀ c ∈ COLUMNS, c ∉ ({ header := [], rows := [] } : Csv).header) :=
  ⟨rfl, rfl, fun c _ hc => by simp at hc⟩

section SanityChecks

example : _extract_numbers ((ocrTokenize "1 10 5 3 2").headD []) = [1, 10, 5, 3, 2] := by decide

example :
    parseScoringLines (ocrTokenize "1 10 5 3 2\n1 8 2 1 1") =
      { attack := 18, block := 7, serve := 4, opp_error := 3,
        total_points := 32, top_scorer_1 := 20, top_scorer_2 := 12 } := by decide

example : parseSimpleTotalLines (ocrTokenize "4 x\n7\nnope\n0\n2") = 13 := by decide

example : _extract_numbers ["12%".data, "A1B2".data, "abc".data] = [12, 1] := by decide

example : parseSpec "m:1" = .ok ("m", 1) := rfl

example : parseSpec "match1" = .error (.invalidMatchSpecification "match1") := rfl

example : build_dataset (fun _ => some "") [] = .ok { header := [], rows := [] } := rfl

end SanityChecks
